import Mathlib

/-!
# filter-rspamd: session dispatcher and spool drain

A shallow embedding of `extras/filters/filter-rspamd/filter_rspamd.c`.

* C strings are lists of characters (the bytes before the terminating NUL).
* Every call that leaves the file (`filter_api_accept`, `filter_api_reject_code`,
  `rfc2822_parser_feed`, `rspamd_send_chunk`, ...) is recorded, in call order, in a
  trace of `Event`s; a "decision" is an `accept` or `reject_code` event.
* `struct session *rs = filter_api_get_udata(id)` is a lookup in a keyed store; a
  store through `rs` is written back under the same key.  Dereferencing a NULL
  pointer is the outcome `fault`.
* What the C library or the host decides (does `fprintf` write everything, does
  `filter_api_datahold_open` return a stream, does `rspamd_connect` succeed, does
  a read end in end-of-file or in an error) is an explicit argument.
* `datahold_stream` passes its local `size_t sz` to `getline` without ever
  assigning it; the value it holds at each call is an explicit argument too, and
  `getline` follows getdelim of the GNU C library in believing it whenever the line
  pointer is not NULL.  A copy that runs past the end of the line block is the
  outcome `fault`.
-/

set_option autoImplicit false
set_option maxRecDepth 20000

namespace FilterRspamd

/-! ## C strings -/

/-- A C string, without its terminating NUL. -/
abbrev CString := List Char

/-- The NUL character. -/
def NUL : Char := Char.ofNat 0

/-- The newline character. -/
def NL : Char := Char.ofNat 10

/-- The string a `char *` denotes when it points at `buf`: the bytes before the first NUL. -/
def cstr (buf : List Char) : CString :=
  buf.takeWhile (fun c => c != NUL)

/-- C `strlen`. -/
def strlen (s : List Char) : Nat :=
  (cstr s).length

/-- C `strcspn(s, reject)`: length of the initial segment of `s` free of `reject` bytes. -/
def strcspn (s : List Char) (reject : List Char) : Nat :=
  ((cstr s).takeWhile (fun c => !reject.contains c)).length

/-- The assignment `buf[i] = '\0'`; index `buf.length` is the terminator itself. -/
def set_nul (buf : List Char) (i : Nat) : List Char :=
  if i < buf.length then buf.set i NUL else buf

/-! ## Streams -/

/-- A stdio stream.  On the write side `data` is what has been written so far; on
the read side it is what is still unread, and `fail` says whether the read that
runs past it ends in an I/O error (`true`) or in end-of-file (`false`).  `err` is
the error indicator of the stream (`ferror`), set by a read error and never
cleared by this program. -/
structure FILE where
  data : List Char
  fail : Bool
  err : Bool := false
deriving DecidableEq, Repr

/-- What the C library does with one `fprintf` call. -/
inductive WriteOutcome where
  /-- every byte is written and their count is returned -/
  | complete
  /-- only the first `k` bytes are written and `k` is returned -/
  | short (k : Nat)
  /-- the first `k` bytes are written and `-1` is returned -/
  | failed (k : Nat)
deriving DecidableEq, Repr

/-- The call `fprintf(fp, "%s\n", line)`: the stream afterwards and the value returned. -/
def fprintf (fp : FILE) (line : CString) (o : WriteOutcome) : FILE × Int :=
  let text := cstr line ++ [NL]
  match o with
  | .complete => ({ fp with data := fp.data ++ text }, (text.length : Int))
  | .short k => ({ fp with data := fp.data ++ text.take k }, ((min k text.length : Nat) : Int))
  | .failed k => ({ fp with data := fp.data ++ text.take k }, -1)

/-- The bytes up to and including the first newline, or all of them if there is none. -/
def take_line : List Char → List Char
  | [] => []
  | c :: cs => if c = NL then [c] else c :: take_line cs

/-- The heap block `rs->tx.line` points at: the bytes getline stored in it (its
terminating NUL not included) and the size it was allocated with. -/
structure LineBuf where
  bytes : List Char
  cap : Nat
deriving DecidableEq, Repr

/-- The result of one `getline` call. -/
structure GetlineRet where
  /-- the value returned: the number of bytes read, or `-1` -/
  len : Int
  /-- the value of `errno` after the call (it was `0` before) -/
  errno : Nat
  /-- the line pointer after the call, `none` for NULL -/
  line : Option LineBuf
  /-- the stream after the call -/
  fp : FILE
  /-- whether the call wrote past the end of the block `line` points at -/
  overrun : Bool
deriving DecidableEq, Repr

/-- The errno value of an I/O error. -/
def EIO_code : Nat := 5

/-- The step `if (*lineptr == NULL || *n == 0) { *n = 120; *lineptr = malloc(*n); }`
of getdelim in the GNU C library: the block in use and the size `*n` getline takes
it to have.  With a non-NULL pointer and `*n` not zero, `*n` is believed as is. -/
def getline_block (line : Option LineBuf) (sz : Nat) : LineBuf × Nat :=
  match line with
  | none => ({ bytes := [], cap := 120 }, 120)
  | some b => if sz = 0 then ({ bytes := [], cap := 120 }, 120) else (b, sz)

/-- The step of getdelim that stores a line `l` and its NUL: with
`needed = len + 1`, if `needed > *n` the block is reallocated to
`max(needed, 2 * *n)` bytes; otherwise the bytes are copied in place, which runs
past the end of the block when the block is really smaller than `needed`.  The
result is the block afterwards and whether the copy ran past its end. -/
def getline_store (blk : LineBuf) (n : Nat) (l : List Char) : LineBuf × Bool :=
  if l.length + 1 > n then
    ({ bytes := l, cap := max (l.length + 1) (2 * n) }, false)
  else
    ({ bytes := l, cap := blk.cap }, decide (blk.cap < l.length + 1))

/-- The call `errno = 0; getline(&line, &sz, fp)` as getdelim of the GNU C library
does it, for a line that is read in one piece.  `sz` is the value the caller's
`size_t sz` holds at the call.
* With the error indicator of the stream set it returns `-1` at once, `errno` untouched.
* Otherwise the block is set up (`getline_block`).  With nothing left to read it
  returns `-1`: `errno` untouched at end-of-file, set (and the error indicator
  with it) on a read error.
* Otherwise the bytes through the next newline are stored (`getline_store`) and
  their count returned.  When the data ends before a newline, what is there is
  stored and returned as a line all the same, whether the data ended in
  end-of-file or in a read error; the read error sets the error indicator. -/
def getline (line : Option LineBuf) (sz : Nat) (fp : FILE) : GetlineRet :=
  if fp.err then
    { len := -1, errno := 0, line := line, fp := fp, overrun := false }
  else
    let b := getline_block line sz
    let l := take_line fp.data
    if l = [] then
      if fp.fail then
        { len := -1, errno := EIO_code, line := some b.1, fp := { fp with err := true },
          overrun := false }
      else
        { len := -1, errno := 0, line := some b.1, fp := fp, overrun := false }
    else
      let s := getline_store b.1 b.2 l
      if l.getLast? = some NL then
        { len := (l.length : Int), errno := 0, line := some s.1,
          fp := { fp with data := fp.data.drop l.length }, overrun := s.2 }
      else
        { len := (l.length : Int), errno := if fp.fail then EIO_code else 0, line := some s.1,
          fp := { fp with data := fp.data.drop l.length, err := fp.fail }, overrun := s.2 }

/-! ## Sessions -/

/-- The fields of `rs->tx` the file uses.  `rfc2822_parser_st` is the parser state
`rs->tx.rfc2822_parser`, kept as the lines fed so far; `scanner` says whether the scanner connection is open. -/
structure tx where
  from_ : Option CString
  rcpt : Option CString
  fp : Option FILE
  line : Option LineBuf
  rfc2822_parser_st : List CString
  error : Int
  scanner : Bool
deriving DecidableEq, Repr

/-- The fields of `struct session` the file uses. -/
structure session where
  id : Nat
  ip : Option CString
  hostname : Option CString
  helo : Option CString
  tx : tx
deriving DecidableEq, Repr

/-- The status class given to `filter_api_reject_code`. -/
inductive filter_status where
  | FILTER_OK
  | FILTER_FAIL
  | FILTER_CLOSE
deriving DecidableEq, Repr

/-- A call that leaves the file. -/
inductive Event where
  /-- the call `filter_api_accept(id)` -/
  | accept (id : Nat)
  /-- the call `filter_api_reject_code(id, status, code, line)` -/
  | reject_code (id : Nat) (status : filter_status) (code : Nat) (line : String)
  /-- the call `rfc2822_parser_feed(&rs->tx.rfc2822_parser, line)` -/
  | parser_feed (line : CString)
  /-- the call `rspamd_send_chunk(rs, line)`, with `rs->id`; `none` is `NULL` -/
  | send_chunk (id : Nat) (line : Option CString)
  /-- the call `filter_api_datahold_open(id, ...)` and whether it returned a stream -/
  | datahold_open (id : Nat) (ok : Bool)
  /-- the call `rspamd_connect(rs)`, with `rs->id`, and whether it succeeded -/
  | rspamd_connect (id : Nat) (ok : Bool)
  /-- the spool stream of session `id` is released -/
  | spool_release (id : Nat)
  /-- the scanner connection of session `id` is released -/
  | scanner_release (id : Nat)
deriving DecidableEq, Repr

/-- The state the handlers run in: the user-data slots of the host, keyed by
connection id, and the calls made so far. -/
structure World where
  udata : List (Nat × session)
  trace : List Event
deriving DecidableEq, Repr

/-- The value a handler returns. -/
inductive RetVal where
  /-- a literal, as in `return 1;` -/
  | int (n : Int)
  /-- the value `filter_api_accept` returned -/
  | of_accept
  /-- the value `filter_api_reject_code` returned -/
  | of_reject_code
deriving DecidableEq, Repr

/-- How a call ends: it returns, or it dereferences a NULL pointer or writes past
the end of a heap block, from where on its behaviour is undefined. -/
inductive Outcome (α : Type) where
  | ret (w : World) (v : α)
  | fault (w : World)
deriving Repr

/-- The world a handler leaves behind. -/
def Outcome.world {α : Type} : Outcome α → World
  | .ret w _ => w
  | .fault w => w

/-- The value returned, if the handler returned. -/
def Outcome.value {α : Type} : Outcome α → Option α
  | .ret _ v => some v
  | .fault _ => none

/-! ## The host and the collaborators -/

/-- Record one call. -/
def emit (w : World) (e : Event) : World :=
  { w with trace := w.trace ++ [e] }

/-- Lookup in the user-data slots. -/
def udata_get : List (Nat × session) → Nat → Option session
  | [], _ => none
  | (k, s) :: rest, id => if k = id then some s else udata_get rest id

/-- Update of the user-data slots. -/
def udata_set : List (Nat × session) → Nat → session → List (Nat × session)
  | [], id, s => [(id, s)]
  | (k, s0) :: rest, id, s =>
    if k = id then (id, s) :: rest else (k, s0) :: udata_set rest id s

/-- Modelled from the spec: the opaque user-data slot keyed by the connection id
(`filter_api_get_udata`, host filter API, not under src/); `none` is NULL. -/
def filter_api_get_udata (w : World) (id : Nat) : Option session :=
  udata_get w.udata id

/-- Modelled from the spec: the opaque user-data slot keyed by the connection id
(`filter_api_set_udata`, host filter API, not under src/).  Also used to write a
store through `rs` back to the session the slot points at. -/
def filter_api_set_udata (w : World) (id : Nat) (rs : session) : World :=
  { w with udata := udata_set w.udata id rs }

/-- Modelled from the spec: the decision primitive accept (`filter_api_accept`,
host filter API, not under src/). -/
def filter_api_accept (w : World) (id : Nat) : World × RetVal :=
  (emit w (.accept id), .of_accept)

/-- Modelled from the spec: the decision primitive reject-with-code(class, numeric
code, message) (`filter_api_reject_code`, host filter API, not under src/). -/
def filter_api_reject_code (w : World) (id : Nat) (status : filter_status) (code : Nat)
    (line : String) : World × RetVal :=
  (emit w (.reject_code id status code line), .of_reject_code)

/-- Modelled from the spec: acquisition of the Spool Stream, which can fail
(`filter_api_datahold_open`, host filter API, not under src/).  `open_ret` is the
stream the host hands out, `none` for NULL. -/
def filter_api_datahold_open (open_ret : Option FILE) (w : World) (id : Nat) :
    World × Option FILE :=
  (emit w (.datahold_open id open_ret.isSome), open_ret)

/-- Modelled from the spec: the host supplies mailbox address values already in
textual form (`struct mailaddr`, smtpd-api.h, not under src/). -/
structure mailaddr where
  text : CString
deriving DecidableEq, Repr

/-- Modelled from the spec: the host supplies mailbox address values already in
textual form (`filter_api_mailaddr_to_text`, host filter API, not under src/). -/
def filter_api_mailaddr_to_text (m : mailaddr) : CString :=
  cstr m.text

/-- The connect metadata the host supplies; only `hostname` is read. -/
structure filter_connect where
  hostname : CString
deriving DecidableEq, Repr

/-- The copy `xstrdup(s, where)` makes: a non-NULL pointer to the same text. -/
def xstrdup (s : CString) : Option CString :=
  some (cstr s)

/-- A transaction with nothing recorded and nothing acquired. -/
def tx_empty : tx :=
  { from_ := none, rcpt := none, fp := none, line := none, rfc2822_parser_st := [],
    error := 0, scanner := false }

/-- Modelled from the spec: on connect a Session is created for the connection id
(`session_init`, rspamd.c, not under src/). -/
def session_init (id : Nat) : session :=
  { id := id, ip := none, hostname := none, helo := none, tx := tx_empty }

/-- Modelled from the spec: reset the Transaction (release any still-open Spool
Stream/Scanner Client, clear sender/recipient/error state), Session persists
(`session_reset`, rspamd.c, not under src/). -/
def session_reset (w : World) (rs : session) : World × session :=
  let w1 := if rs.tx.fp.isSome then emit w (.spool_release rs.id) else w
  let w2 := if rs.tx.scanner then emit w1 (.scanner_release rs.id) else w1
  (w2, { rs with tx := tx_empty })

/-- Modelled from the spec: connect establishes a session-scoped connection to
the scanning service and can fail (`rspamd_connect`, rspamd.c, not under src/).
`connect_ret` is whether it succeeds. -/
def rspamd_connect (connect_ret : Bool) (w : World) (rs : session) :
    World × session × Bool :=
  (emit w (.rspamd_connect rs.id connect_ret),
   { rs with tx := { rs.tx with scanner := connect_ret } }, connect_ret)

/-- Modelled from the spec: send-chunk forwards one line verbatim or, with the
end marker, finalizes the request to the scanning service (`rspamd_send_chunk`,
rspamd.c, not under src/). -/
def rspamd_send_chunk (w : World) (rs : session) (line : Option CString) : World :=
  emit w (.send_chunk rs.id line)

/-- Modelled from the spec: the Line Parser Feed accepts one line of text and
advances its state (`rfc2822_parser_feed`, not under src/); the state is the
lines fed so far. -/
def rfc2822_parser_feed (tr : List Event) (parser : List CString) (line : CString) :
    List Event × List CString :=
  (tr ++ [.parser_feed line], parser ++ [line])

/-- The bytes in the block a line pointer points at. -/
def line_bytes (line : Option LineBuf) : List Char :=
  match line with
  | none => []
  | some b => b.bytes

/-! ## The handlers of filter_rspamd.c -/

/-- The drain callback registered with `filter_api_datahold_open`.  `rs` is the
session `arg` points at; the session after the call is returned with the
stream and the world.  The callback never looks a session up, so `w.udata` is
carried along untouched.  `size_t sz` is never assigned before it is passed to
`getline`: `sz 0` is the value it happens to hold in this call, `sz 1` in the
recursive call, and so on. -/
def datahold_stream (sz : Nat → Nat) (w : World) (id : Nat) (fp : FILE) (rs : session) :
    Outcome (FILE × session) :=
  let g := getline rs.tx.line (sz 0) fp
  if g.overrun then .fault w
  else if _h : g.len = -1 then
    if g.errno ≠ 0 then
      .ret (filter_api_reject_code w rs.id .FILTER_FAIL 421 "temporary failure").1
        (g.fp, { rs with tx := { rs.tx with line := g.line } })
    else
      .ret (filter_api_accept w rs.id).1 (g.fp, { rs with tx := { rs.tx with line := g.line } })
  else
    let line := g.line.map (fun b => { b with bytes := set_nul b.bytes (strcspn b.bytes [NL]) })
    let fed := rfc2822_parser_feed w.trace rs.tx.rfc2822_parser_st (cstr (line_bytes line))
    datahold_stream (fun i => sz (i + 1)) { w with trace := fed.1 } id g.fp
      { rs with tx := { rs.tx with line := line, rfc2822_parser_st := fed.2 } }
termination_by fp.data.length
decreasing_by
  have hg : ¬ (getline rs.tx.line (sz 0) fp).len = -1 := by assumption
  have he : fp.err = false := by
    cases h0 : fp.err with
    | false => rfl
    | true => exact absurd (by simp [getline, h0]) hg
  have hl : take_line fp.data ≠ [] := by
    intro h0
    apply hg
    unfold getline
    by_cases hf : fp.fail = true <;> simp [h0, hf, he]
  have hd : fp.data ≠ [] := by
    intro h0
    apply hl
    rw [h0]
    rfl
  have h1 := List.length_pos.mpr hd
  have h2 := List.length_pos.mpr hl
  have hdrop : (fp.data.drop (take_line fp.data).length).length < fp.data.length := by
    rw [List.length_drop]
    omega
  unfold getline
  by_cases hn : (take_line fp.data).getLast? = some NL
  · simp only [he, hl, hn, if_true, if_false, Bool.false_eq_true]
    exact hdrop
  · simp only [he, hl, hn, if_false, Bool.false_eq_true]
    exact hdrop

/-- The handler of the connect event. -/
def on_connect (w : World) (id : Nat) (conn : filter_connect) : Outcome RetVal :=
  let rs := session_init id
  let ip : CString := "127.0.0.1".toList
  let rs := { rs with ip := xstrdup ip }
  let rs := { rs with hostname := xstrdup conn.hostname }
  let w := filter_api_set_udata w id rs
  let r := filter_api_accept w id
  .ret r.1 r.2

/-- The handler of the greeting event. -/
def on_helo (w : World) (id : Nat) (helo : CString) : Outcome RetVal :=
  match filter_api_get_udata w id with
  | none => .fault w
  | some rs =>
    let rs := { rs with helo := xstrdup helo }
    let w := filter_api_set_udata w id rs
    let r := filter_api_accept w id
    .ret r.1 r.2

/-- The handler of the sender event. -/
def on_mail (w : World) (id : Nat) (mail : mailaddr) : Outcome RetVal :=
  match filter_api_get_udata w id with
  | none => .fault w
  | some rs =>
    let address := filter_api_mailaddr_to_text mail
    let rs := { rs with tx := { rs.tx with from_ := xstrdup address } }
    let w := filter_api_set_udata w id rs
    let r := filter_api_accept w id
    .ret r.1 r.2

/-- The handler of the recipient event. -/
def on_rcpt (w : World) (id : Nat) (rcpt : mailaddr) : Outcome RetVal :=
  match filter_api_get_udata w id with
  | none => .fault w
  | some rs =>
    let address := filter_api_mailaddr_to_text rcpt
    let rs := { rs with tx := { rs.tx with rcpt := xstrdup address } }
    let w := filter_api_set_udata w id rs
    let r := filter_api_accept w id
    .ret r.1 r.2

/-- The handler of the data-start event.  `open_ret` is what
`filter_api_datahold_open` returns and `connect_ret` whether `rspamd_connect`
succeeds. -/
def on_data (open_ret : Option FILE) (connect_ret : Bool) (w : World) (id : Nat) :
    Outcome RetVal :=
  let o := filter_api_datahold_open open_ret w id
  match filter_api_get_udata o.1 id with
  | none => .fault o.1
  | some rs =>
    let rs := { rs with tx := { rs.tx with fp := o.2 } }
    let w := filter_api_set_udata o.1 id rs
    if rs.tx.fp = none then
      let r := filter_api_reject_code w rs.id .FILTER_FAIL 421 "temporary failure"
      .ret r.1 r.2
    else
      let c := rspamd_connect connect_ret w rs
      let w := filter_api_set_udata c.1 id c.2.1
      if !c.2.2 then
        let r := filter_api_reject_code w c.2.1.id .FILTER_FAIL 421 "temporary failure"
        .ret r.1 r.2
      else
        .ret w (.int 1)

/-- The handler of the data-line event.  `o` is what the C library does with the
`fprintf` call. -/
def on_dataline (o : WriteOutcome) (w : World) (id : Nat) (line : CString) : Outcome Unit :=
  match filter_api_get_udata w id with
  | none => .fault w
  | some rs =>
    match rs.tx.fp with
    | none => .fault w
    | some fp =>
      let p := fprintf fp line o
      let rs := { rs with tx := { rs.tx with fp := some p.1 } }
      let sz := p.2
      let rs :=
        if sz = -1 ∨ sz < (strlen line : Int) + 1 then
          { rs with tx := { rs.tx with error := 1 } }
        else rs
      let w := filter_api_set_udata w id rs
      .ret (rspamd_send_chunk w rs (some line)) ()

/-- The handler of the end-of-message event.  `rs` is only handed to
`rspamd_send_chunk`, which sends on the session's connection: without a session
that call faults. -/
def on_eom (w : World) (id : Nat) (size : Nat) : Outcome RetVal :=
  let _ := size
  match filter_api_get_udata w id with
  | none => .fault w
  | some rs =>
    .ret (rspamd_send_chunk w rs none) (.int 1)

/-- The handler of the commit event.  `session_reset` works through `rs`: without
a session it faults. -/
def on_commit (w : World) (id : Nat) : Outcome Unit :=
  match filter_api_get_udata w id with
  | none => .fault w
  | some rs =>
    let r := session_reset w rs
    .ret (filter_api_set_udata r.1 id r.2) ()

/-- The handler of the rollback event.  `session_reset` works through `rs`: without
a session it faults. -/
def on_rollback (w : World) (id : Nat) : Outcome Unit :=
  match filter_api_get_udata w id with
  | none => .fault w
  | some rs =>
    let r := session_reset w rs
    .ret (filter_api_set_udata r.1 id r.2) ()

/-! ## Reading the trace -/

/-- The decisions in a trace: the accept and reject-with-code calls. -/
def decisions (tr : List Event) : List Event :=
  tr.filter (fun e =>
    match e with
    | .accept _ => true
    | .reject_code _ _ _ _ => true
    | _ => false)

/-- The arguments of the parser feed calls in a trace. -/
def feeds : List Event → List CString
  | [] => []
  | .parser_feed l :: rest => l :: feeds rest
  | _ :: rest => feeds rest

/-- The arguments of the send-chunk calls in a trace. -/
def chunks : List Event → List (Option CString)
  | [] => []
  | .send_chunk _ l :: rest => l :: chunks rest
  | _ :: rest => chunks rest

/-- The host delivers data lines in order, each with what the C library does
with its write; it stops at a fault. -/
def on_datalines (w : World) (id : Nat) : List (CString × WriteOutcome) → Outcome Unit
  | [] => .ret w ()
  | (l, o) :: rest =>
    match on_dataline o w id l with
    | .ret w1 _ => on_datalines w1 id rest
    | .fault w1 => .fault w1

/-- The temporary-reject decision for session `id`. -/
def temp_reject (id : Nat) : Event :=
  .reject_code id .FILTER_FAIL 421 "temporary failure"

/-- The text `on_dataline` spools for a list of lines: each line and a newline. -/
def spool_text : List CString → List Char
  | [] => []
  | l :: ls => l ++ NL :: spool_text ls

/-- The events of `tr` that come after the first `n`. -/
def since (n : Nat) (tr : List Event) : List Event :=
  tr.drop n

/-- Whether the C library's handling of the write of `line` makes `on_dataline`
set the error flag. -/
def spool_write_fails (line : CString) : WriteOutcome → Bool
  | .complete => false
  | .short k => decide (k < strlen line + 1)
  | .failed _ => true

/-- The session with another line pointer. -/
def with_line (rs : session) (line : Option LineBuf) : session :=
  { rs with tx := { rs.tx with line := line } }

/-- The session after the drain has run: only the line buffer and the parser state change. -/
def with_drain (rs : session) (line : Option LineBuf) (parser : List CString) : session :=
  { rs with tx := { rs.tx with line := line, rfc2822_parser_st := parser } }

/-- The spool stream after the writes of `ls`. -/
def spool_after (f : FILE) : List (CString × WriteOutcome) → FILE
  | [] => f
  | (l, o) :: rest => spool_after (fprintf f l o).1 rest

/-- The error flag after the writes of `ls`. -/
def error_after (e : Int) : List (CString × WriteOutcome) → Int
  | [] => e
  | (l, o) :: rest => error_after (if spool_write_fails l o then 1 else e) rest

/-- The session after the writes of `ls`: only the spool stream and the error flag change. -/
def with_writes (rs : session) (f : FILE) (ls : List (CString × WriteOutcome)) : session :=
  { rs with tx := { rs.tx with fp := some (spool_after f ls), error := error_after rs.tx.error ls } }

/-- A session in the DATA phase: a fresh spool stream and an open scanner connection. -/
def ex_session : session :=
  { id := 7, ip := some "127.0.0.1".toList, hostname := some "mx.example.org".toList,
    helo := some "mail.example.com".toList,
    tx := { tx_empty with from_ := some "a@x.com".toList, rcpt := some "b@y.com".toList,
                          fp := some { data := [], fail := false }, scanner := true } }

/-- A world whose only session is `ex_session`, under connection id 7. -/
def ex_world : World :=
  { udata := [(7, ex_session)], trace := [] }

/-- A session before DATA: nothing acquired yet. -/
def ex_session0 : session :=
  { id := 7, ip := some "127.0.0.1".toList, hostname := some "mx.example.org".toList,
    helo := some "mail.example.com".toList,
    tx := { tx_empty with from_ := some "a@x.com".toList, rcpt := some "b@y.com".toList } }

/-- A world whose only session is `ex_session0`, under connection id 7. -/
def ex_world0 : World :=
  { udata := [(7, ex_session0)], trace := [] }

/-- Two data lines, the second longer than the block getline first allocates. -/
def ex_long_lines : List CString :=
  ["a".toList, List.replicate 200 'x']

/-- The world after `ex_long_lines` have been delivered to `ex_world`, every write complete. -/
def ex_spooled : World :=
  (on_datalines ex_world 7 (ex_long_lines.map (fun l => (l, WriteOutcome.complete)))).world

/-- The session of `ex_spooled`: the spool holds the two lines, no error is recorded. -/
def ex_spooled_session : session :=
  { ex_session with
    tx := { ex_session.tx with fp := some { data := spool_text ex_long_lines, fail := false } } }

/-! ## Lemmas on C strings and streams -/

theorem NL_ne_NUL : NL ≠ NUL := by decide

theorem cstr_cons_NUL (x : List Char) : cstr (NUL :: x) = [] := by
  simp [cstr]

theorem cstr_cons (c : Char) (x : List Char) (h : c ≠ NUL) : cstr (c :: x) = c :: cstr x := by
  simp [cstr, h]

theorem cstr_of_no_NUL (l : List Char) (h : NUL ∉ l) : cstr l = l := by
  induction l with
  | nil => rfl
  | cons c x ih =>
    have hc : c ≠ NUL := fun e => h (by simp [e])
    have hx : NUL ∉ x := fun e => h (by simp [e])
    rw [cstr_cons c x hc, ih hx]

theorem NUL_not_mem_cstr (l : List Char) : NUL ∉ cstr l := by
  induction l with
  | nil => simp [cstr]
  | cons c x ih =>
    by_cases hc : c = NUL
    · subst hc
      simp [cstr_cons_NUL]
    · rw [cstr_cons c x hc]
      simp only [List.mem_cons, not_or]
      exact ⟨fun e => hc e.symm, ih⟩

theorem cstr_idem (l : List Char) : cstr (cstr l) = cstr l :=
  cstr_of_no_NUL _ (NUL_not_mem_cstr l)

/-- What `rfc2822_parser_feed` is given after `line[strcspn(line, "\n")] = '\0'`:
the buffer cut at its first newline or NUL. -/
theorem cstr_set_nul_strcspn (buf : List Char) :
    cstr (set_nul buf (strcspn buf [NL])) = (cstr buf).takeWhile (fun c => c != NL) := by
  induction buf with
  | nil => simp [set_nul, strcspn, cstr]
  | cons c x ih =>
    by_cases hc : c = NUL
    · subst hc
      simp [set_nul, strcspn, cstr_cons_NUL]
    · by_cases hn : c = NL
      · subst hn
        simp [set_nul, strcspn, cstr_cons NL x hc, cstr_cons_NUL]
      · have h1 : strcspn (c :: x) [NL] = strcspn x [NL] + 1 := by
          simp [strcspn, cstr_cons c x hc, hn]
        have h2 : set_nul (c :: x) (strcspn x [NL] + 1) = c :: set_nul x (strcspn x [NL]) := by
          unfold set_nul
          by_cases hl : strcspn x [NL] < x.length
          · simp [hl]
          · simp [hl]
        rw [h1, h2, cstr_cons c _ hc, ih, cstr_cons c x hc]
        simp [hn]

/-- The argument of the parser feed for a complete line `l` followed by its newline. -/
theorem feed_arg_line (l : List Char) (h : NL ∉ l) :
    cstr (set_nul (l ++ [NL]) (strcspn (l ++ [NL]) [NL])) = cstr l := by
  rw [cstr_set_nul_strcspn]
  induction l with
  | nil => simp [cstr, NL_ne_NUL]
  | cons c x ih =>
    have hc : c ≠ NL := fun e => h (by simp [e])
    have hx : NL ∉ x := fun e => h (by simp [e])
    by_cases h0 : c = NUL
    · subst h0
      simp [cstr_cons_NUL]
    · rw [List.cons_append, cstr_cons c _ h0, cstr_cons c x h0]
      simp [hc, ih hx]

theorem take_line_line (l rest : List Char) (h : NL ∉ l) :
    take_line (l ++ NL :: rest) = l ++ [NL] := by
  induction l with
  | nil => simp [take_line]
  | cons c x ih =>
    have hc : c ≠ NL := fun e => h (by simp [e])
    have hx : NL ∉ x := fun e => h (by simp [e])
    simp [take_line, hc, ih hx]

/-- Reading a complete line: `getline` stores it with its newline and leaves the rest. -/
theorem getline_line (line : Option LineBuf) (sz : Nat) (l rest : List Char) (fail : Bool)
    (h : NL ∉ l) :
    getline line sz { data := l ++ NL :: rest, fail := fail, err := false } =
      { len := ((l ++ [NL]).length : Int), errno := 0,
        line := some (getline_store (getline_block line sz).1 (getline_block line sz).2
          (l ++ [NL])).1,
        fp := { data := rest, fail := fail, err := false },
        overrun := (getline_store (getline_block line sz).1 (getline_block line sz).2
          (l ++ [NL])).2 } := by
  unfold getline
  simp only [take_line_line l rest h]
  have hd : List.drop (l ++ [NL]).length (l ++ NL :: rest) = rest := by
    have : l ++ NL :: rest = (l ++ [NL]) ++ rest := by simp
    rw [this, List.drop_left]
  simp [hd]

/-- Reading with nothing buffered on a failing stream: `-1` with `errno` set. -/
theorem getline_error (line : Option LineBuf) (sz : Nat) (fp : FILE) (hd : fp.data = [])
    (hf : fp.fail = true) (he : fp.err = false) :
    getline line sz fp =
      { len := -1, errno := EIO_code, line := some (getline_block line sz).1,
        fp := { fp with err := true }, overrun := false } := by
  simp [getline, hd, hf, he, take_line]

theorem datahold_stream_overrun (sz : Nat → Nat) (w : World) (id : Nat) (fp : FILE)
    (rs : session) (h : (getline rs.tx.line (sz 0) fp).overrun = true) :
    datahold_stream sz w id fp rs = .fault w := by
  rw [datahold_stream]
  simp only [h, if_true]

theorem datahold_stream_stop (sz : Nat → Nat) (w : World) (id : Nat) (fp : FILE) (rs : session)
    (ho : (getline rs.tx.line (sz 0) fp).overrun = false)
    (h : (getline rs.tx.line (sz 0) fp).len = -1) :
    datahold_stream sz w id fp rs =
      if (getline rs.tx.line (sz 0) fp).errno ≠ 0 then
        .ret (emit w (temp_reject rs.id))
          ((getline rs.tx.line (sz 0) fp).fp, with_line rs (getline rs.tx.line (sz 0) fp).line)
      else
        .ret (emit w (.accept rs.id))
          ((getline rs.tx.line (sz 0) fp).fp, with_line rs (getline rs.tx.line (sz 0) fp).line) := by
  rw [datahold_stream]
  simp only [ho, h, dite_true, Bool.false_eq_true, if_false]
  rfl

theorem datahold_stream_step (sz : Nat → Nat) (w : World) (id : Nat) (fp : FILE) (rs : session)
    (ho : (getline rs.tx.line (sz 0) fp).overrun = false)
    (h : ¬ (getline rs.tx.line (sz 0) fp).len = -1) :
    datahold_stream sz w id fp rs =
      datahold_stream (fun i => sz (i + 1))
        { w with trace := w.trace ++ [.parser_feed (cstr (line_bytes
            ((getline rs.tx.line (sz 0) fp).line.map
              (fun b => { b with bytes := set_nul b.bytes (strcspn b.bytes [NL]) }))))] }
        id (getline rs.tx.line (sz 0) fp).fp
        (with_drain rs
          ((getline rs.tx.line (sz 0) fp).line.map
            (fun b => { b with bytes := set_nul b.bytes (strcspn b.bytes [NL]) }))
          (rs.tx.rfc2822_parser_st ++ [cstr (line_bytes
            ((getline rs.tx.line (sz 0) fp).line.map
              (fun b => { b with bytes := set_nul b.bytes (strcspn b.bytes [NL]) })))])) := by
  rw [datahold_stream]
  simp only [ho, h, dite_false, Bool.false_eq_true, if_false]
  rfl

/-- The drain running into a read error with nothing buffered: one temporary-reject. -/
theorem drain_error (sz : Nat → Nat) (w : World) (id : Nat) (fp : FILE) (rs : session)
    (hd : fp.data = []) (hf : fp.fail = true) (he : fp.err = false) :
    datahold_stream sz w id fp rs =
      .ret (emit w (temp_reject rs.id))
        ({ fp with err := true }, with_line rs (some (getline_block rs.tx.line (sz 0)).1)) := by
  have hg := getline_error rs.tx.line (sz 0) fp hd hf he
  rw [datahold_stream_stop sz w id fp rs (by rw [hg]) (by rw [hg]), hg]
  simp [EIO_code]

/-- One complete line that `getline` stores inside the block: it is fed, cut at its
newline, and the drain goes on. -/
theorem drain_line (sz : Nat → Nat) (w : World) (id : Nat) (rs : session) (l rest : List Char)
    (fail : Bool) (h : NL ∉ l)
    (hfit : (getline_store (getline_block rs.tx.line (sz 0)).1
      (getline_block rs.tx.line (sz 0)).2 (l ++ [NL])).2 = false) :
    datahold_stream sz w id { data := l ++ NL :: rest, fail := fail, err := false } rs =
      datahold_stream (fun i => sz (i + 1))
        { w with trace := w.trace ++ [.parser_feed (cstr l)] } id
        { data := rest, fail := fail, err := false }
        (with_drain rs
          (some { bytes := set_nul (l ++ [NL]) (strcspn (l ++ [NL]) [NL]),
                  cap := (getline_store (getline_block rs.tx.line (sz 0)).1
                    (getline_block rs.tx.line (sz 0)).2 (l ++ [NL])).1.cap })
          (rs.tx.rfc2822_parser_st ++ [cstr l])) := by
  have hg := getline_line rs.tx.line (sz 0) l rest fail h
  have hb : (getline_store (getline_block rs.tx.line (sz 0)).1
      (getline_block rs.tx.line (sz 0)).2 (l ++ [NL])).1.bytes = l ++ [NL] := by
    unfold getline_store
    split <;> rfl
  have hlen : ¬ (getline rs.tx.line (sz 0)
      { data := l ++ NL :: rest, fail := fail, err := false }).len = -1 := by
    rw [hg]
    simp only
    omega
  rw [datahold_stream_step sz w id _ rs (by rw [hg]; exact hfit) hlen, hg]
  simp only [Option.map_some', line_bytes, hb, feed_arg_line l h]

/-- One complete line that `getline` copies past the end of the block. -/
theorem drain_line_overrun (sz : Nat → Nat) (w : World) (id : Nat) (rs : session)
    (l rest : List Char) (fail : Bool) (h : NL ∉ l)
    (hover : (getline_store (getline_block rs.tx.line (sz 0)).1
      (getline_block rs.tx.line (sz 0)).2 (l ++ [NL])).2 = true) :
    datahold_stream sz w id { data := l ++ NL :: rest, fail := fail, err := false } rs =
      .fault w := by
  have hg := getline_line rs.tx.line (sz 0) l rest fail h
  exact datahold_stream_overrun sz w id _ rs (by rw [hg]; exact hover)

theorem udata_get_set (m : List (Nat × session)) (id : Nat) (s : session) :
    udata_get (udata_set m id s) id = some s := by
  induction m with
  | nil => simp [udata_set, udata_get]
  | cons p rest ih =>
    obtain ⟨k, s0⟩ := p
    by_cases h : k = id
    · simp [udata_set, udata_get, h]
    · simp [udata_set, udata_get, h, ih]

theorem udata_get_set_ne (m : List (Nat × session)) (id j : Nat) (s : session) (hj : j ≠ id) :
    udata_get (udata_set m id s) j = udata_get m j := by
  induction m with
  | nil =>
    have : ¬ id = j := fun e => hj e.symm
    simp [udata_set, udata_get, this]
  | cons p rest ih =>
    obtain ⟨k, s0⟩ := p
    by_cases h : k = id
    · have hkj : ¬ k = j := fun e => hj (e.symm.trans h)
      have hij : ¬ id = j := fun e => hj e.symm
      simp [udata_set, udata_get, h, hij]
    · by_cases hkj : k = j
      · subst hkj
        simp [udata_set, udata_get, h]
      · simp [udata_set, udata_get, h, hkj, ih]

/-- The test `sz == -1 || sz < (ssize_t)strlen(line) + 1` of `on_dataline`. -/
theorem write_test (f : FILE) (l : CString) (o : WriteOutcome) :
    ((fprintf f l o).2 = -1 ∨ (fprintf f l o).2 < (strlen l : Int) + 1) ↔
      spool_write_fails l o = true := by
  cases o with
  | complete =>
    simp only [fprintf, spool_write_fails, strlen, List.length_append, List.length_singleton]
    constructor
    · intro h
      rcases h with h | h <;> omega
    · intro h
      exact absurd h (by simp)
  | short k =>
    simp only [fprintf, spool_write_fails, strlen, List.length_append, List.length_singleton,
      decide_eq_true_eq]
    constructor
    · intro h
      rcases h with h | h <;> omega
    · intro h
      right
      omega
  | failed k =>
    simp [fprintf, spool_write_fails]

/-- One data line on a session that holds a spool stream. -/
theorem on_dataline_ok (o : WriteOutcome) (w : World) (id : Nat) (l : CString) (rs : session)
    (f : FILE) (hrs : filter_api_get_udata w id = some rs) (hfp : rs.tx.fp = some f) :
    on_dataline o w id l =
      .ret { udata := udata_set w.udata id (with_writes rs f [(l, o)]),
             trace := w.trace ++ [.send_chunk rs.id (some l)] } () := by
  unfold on_dataline
  rw [hrs]
  simp only [hfp]
  by_cases hw : spool_write_fails l o = true
  · have ht := (write_test f l o).mpr hw
    simp only [ht, if_true]
    simp [rspamd_send_chunk, emit, filter_api_set_udata, with_writes, spool_after, error_after, hw]
  · have ht : ¬ ((fprintf f l o).2 = -1 ∨ (fprintf f l o).2 < (strlen l : Int) + 1) :=
      fun e => hw ((write_test f l o).mp e)
    simp only [ht, if_false]
    simp [rspamd_send_chunk, emit, filter_api_set_udata, with_writes, spool_after, error_after, hw]

/-- A run of data lines on a session that holds a spool stream: every line is
forwarded to the scanner, the spool and the error flag follow the writes, and
nothing else is called. -/
theorem on_datalines_ok (id : Nat) (ls : List (CString × WriteOutcome)) (w : World)
    (rs : session) (f : FILE) (hrs : filter_api_get_udata w id = some rs)
    (hfp : rs.tx.fp = some f) :
    ∃ w1, on_datalines w id ls = .ret w1 () ∧
      filter_api_get_udata w1 id = some (with_writes rs f ls) ∧
      w1.trace = w.trace ++ ls.map (fun p => Event.send_chunk rs.id (some p.1)) := by
  induction ls generalizing w rs f with
  | nil =>
    refine ⟨w, rfl, ?_, by simp⟩
    rw [hrs]
    cases rs with
    | mk i a b c t =>
      cases t
      simp only [with_writes, spool_after, error_after] at hfp ⊢
      rw [hfp]
  | cons p rest ih =>
    obtain ⟨l, o⟩ := p
    have h1 := on_dataline_ok o w id l rs f hrs hfp
    have hget : filter_api_get_udata
        { udata := udata_set w.udata id (with_writes rs f [(l, o)]),
          trace := w.trace ++ [.send_chunk rs.id (some l)] } id =
        some (with_writes rs f [(l, o)]) := udata_get_set w.udata id _
    obtain ⟨w1, hw1, hg1, ht1⟩ := ih _ (with_writes rs f [(l, o)]) (fprintf f l o).1 hget rfl
    refine ⟨w1, ?_, ?_, ?_⟩
    · simp only [on_datalines, h1]
      exact hw1
    · rw [hg1]
      simp [with_writes, spool_after, error_after]
    · rw [ht1]
      simp [with_writes]

theorem since_append (a b : List Event) : since a.length (a ++ b) = b := by
  simp [since]

theorem chunks_append (a b : List Event) : chunks (a ++ b) = chunks a ++ chunks b := by
  induction a with
  | nil => rfl
  | cons e rest ih => cases e <;> simp [chunks, ih]

theorem chunks_map_send_chunk (i : Nat) (ls : List (CString × WriteOutcome)) :
    chunks (ls.map (fun p => Event.send_chunk i (some p.1))) = ls.map (fun p => some p.1) := by
  induction ls with
  | nil => rfl
  | cons l rest ih => simp [chunks, ih]

theorem decisions_append (a b : List Event) : decisions (a ++ b) = decisions a ++ decisions b := by
  simp [decisions]

/-- One recipient on a connection with a session. -/
theorem on_rcpt_ok (w : World) (id : Nat) (rs : session) (r : mailaddr)
    (hrs : filter_api_get_udata w id = some rs) :
    on_rcpt w id r =
      .ret { udata := udata_set w.udata id
               { rs with tx := { rs.tx with rcpt := some (filter_api_mailaddr_to_text r) } },
             trace := w.trace ++ [.accept id] } .of_accept := by
  simp only [on_rcpt, hrs, filter_api_accept, emit, filter_api_set_udata, xstrdup,
    filter_api_mailaddr_to_text, cstr_idem]

/-- A rollback on a connection with a session resets its transaction. -/
theorem on_rollback_ok (w : World) (id : Nat) (rs : session)
    (hrs : filter_api_get_udata w id = some rs) :
    on_rollback w id =
      .ret (filter_api_set_udata (session_reset w rs).1 id (session_reset w rs).2) () := by
  simp only [on_rollback, hrs]

/-- C1, the code at a failing input: the lines "a" and a line of 200 bytes are spooled
with complete writes and drained without read error, with `sz` holding 4096 at
each `getline` call.  The first call allocates a block of 120 bytes; the second
believes `sz`, copies 201 bytes and the NUL into that block and runs past its
end.  Only "a" has reached the parser feed by then. -/
theorem C1_long_line_overruns_line_buffer :
    (∀ l ∈ ex_long_lines, NL ∉ l ∧ NUL ∉ l) ∧
    (on_datalines ex_world 7
      (ex_long_lines.map (fun l => (l, WriteOutcome.complete)))).value = some () ∧
    filter_api_get_udata ex_spooled 7 = some ex_spooled_session ∧
    ex_spooled_session.tx.error = 0 ∧
    (datahold_stream (fun _ => 4096) ex_spooled 7
      { data := spool_text ex_long_lines, fail := false } ex_spooled_session).value = none ∧
    feeds (since ex_spooled.trace.length
      (datahold_stream (fun _ => 4096) ex_spooled 7
        { data := spool_text ex_long_lines, fail := false } ex_spooled_session).world.trace) =
      ["a".toList] ∧
    feeds (since ex_spooled.trace.length
      (datahold_stream (fun _ => 4096) ex_spooled 7
        { data := spool_text ex_long_lines, fail := false } ex_spooled_session).world.trace) ≠
      ex_long_lines := by
  have hx : NL ∉ List.replicate 200 'x' := by
    intro h
    have h1 := List.eq_of_mem_replicate h
    revert h1
    decide
  have hd : spool_text ex_long_lines =
      "a".toList ++ NL :: (List.replicate 200 'x' ++ NL :: []) := rfl
  have hrun : datahold_stream (fun _ => 4096) ex_spooled 7
      { data := spool_text ex_long_lines, fail := false } ex_spooled_session =
      .fault { ex_spooled with trace := ex_spooled.trace ++ [.parser_feed (cstr "a".toList)] } := by
    rw [hd, drain_line _ _ _ _ _ _ _ (by decide) (by decide),
      drain_line_overrun _ _ _ _ _ _ _ hx (by decide)]
  rw [hrun]
  refine ⟨by decide, by decide, by decide, by decide, rfl, ?_, ?_⟩
  · simp only [Outcome.world, since_append]
    decide
  · simp only [Outcome.world, since_append]
    decide

/-- C8: when the data lines L1..Ln are delivered by `on_dataline` in order to a
session that holds a spool stream and `on_eom` follows, the chunks passed to `rspamd_send_chunk` are exactly
L1, ..., Ln, each unmodified, followed by one end marker (NULL), whatever the
spool writes did (complete, short or failed). -/
theorem C8_scanner_receives_lines_then_end (w : World) (id : Nat) (rs : session) (f0 : FILE)
    (ls : List (CString × WriteOutcome)) (size : Nat)
    (hrs : filter_api_get_udata w id = some rs) (hfp : rs.tx.fp = some f0) :
    ∃ w1 w2, on_datalines w id ls = .ret w1 () ∧ on_eom w1 id size = .ret w2 (.int 1) ∧
      chunks (since w.trace.length w2.trace) = ls.map (fun p => some p.1) ++ [none] := by
  obtain ⟨w1, hw1, hg1, ht1⟩ := on_datalines_ok id ls w rs f0 hrs hfp
  refine ⟨w1, rspamd_send_chunk w1 (with_writes rs f0 ls) none, hw1, ?_, ?_⟩
  · simp [on_eom, hg1]
  · simp only [rspamd_send_chunk, emit, ht1, List.append_assoc]
    rw [since_append, chunks_append, chunks_map_send_chunk]
    simp [chunks]

/-- C8 at an example input: the hypotheses hold there and the theorem applies. -/
theorem C8_scanner_receives_lines_then_end_witness :
    (filter_api_get_udata ex_world 7 = some ex_session ∧
      ex_session.tx.fp = some { data := [], fail := false }) ∧
    ∃ w1 w2,
      on_datalines ex_world 7
        [("Subject: hi".toList, .complete), ([], .failed 0), ("body".toList, .short 2)] =
          .ret w1 () ∧
      on_eom w1 7 16 = .ret w2 (.int 1) ∧
      chunks (since ex_world.trace.length w2.trace) =
        [("Subject: hi".toList, WriteOutcome.complete), ([], .failed 0),
          ("body".toList, .short 2)].map (fun p => some p.1) ++ [none] :=
  ⟨⟨by decide, by decide⟩,
   C8_scanner_receives_lines_then_end ex_world 7 ex_session { data := [], fail := false }
     [("Subject: hi".toList, .complete), ([], .failed 0), ("body".toList, .short 2)] 16
     (by decide) (by decide)⟩

/-- C5: on a connection with a session, `on_data` issues the temporary-reject
(FILTER_FAIL, 421, "temporary failure") exactly when the spool acquisition or the
scanner connect fails, and then issues nothing else and returns what the reject
primitive returned; when the acquisition fails the scanner connect is not
attempted; when both succeed it returns 1 and issues no decision. -/
theorem C5_on_data_rejects_iff_acquisition_fails (open_ret : Option FILE) (connect_ret : Bool)
    (w : World) (id : Nat) (rs : session) (hrs : filter_api_get_udata w id = some rs) :
    (decisions (since w.trace.length (on_data open_ret connect_ret w id).world.trace) =
      if open_ret = none ∨ connect_ret = false
      then [.reject_code rs.id .FILTER_FAIL 421 "temporary failure"] else []) ∧
    ((on_data open_ret connect_ret w id).value =
      if open_ret = none ∨ connect_ret = false then some .of_reject_code else some (.int 1)) ∧
    (open_ret = none →
      since w.trace.length (on_data open_ret connect_ret w id).world.trace =
        [.datahold_open id false, .reject_code rs.id .FILTER_FAIL 421 "temporary failure"]) := by
  have hget : filter_api_get_udata (filter_api_datahold_open open_ret w id).1 id = some rs := hrs
  simp only [on_data, hget]
  cases open_ret with
  | none =>
    simp [filter_api_datahold_open, filter_api_reject_code, filter_api_set_udata,
      emit, Outcome.world, Outcome.value, since, decisions]
  | some f =>
    cases connect_ret with
    | false =>
      simp [filter_api_datahold_open, filter_api_reject_code,
        filter_api_set_udata, rspamd_connect, emit, Outcome.world, Outcome.value, since,
        decisions]
    | true =>
      simp [filter_api_datahold_open, filter_api_reject_code,
        filter_api_set_udata, rspamd_connect, emit, Outcome.world, Outcome.value, since,
        decisions]

/-- C5 at an example input: the hypotheses hold there and the theorem applies. -/
theorem C5_on_data_rejects_iff_acquisition_fails_witness :
    filter_api_get_udata ex_world 7 = some ex_session ∧
    ((decisions (since ex_world.trace.length
        (on_data (some { data := [], fail := false }) false ex_world 7).world.trace) =
      if (some { data := [], fail := false } : Option FILE) = none ∨ false = false
      then [.reject_code ex_session.id .FILTER_FAIL 421 "temporary failure"] else []) ∧
    ((on_data (some { data := [], fail := false }) false ex_world 7).value =
      if (some { data := [], fail := false } : Option FILE) = none ∨ false = false
      then some .of_reject_code else some (.int 1)) ∧
    ((some { data := [], fail := false } : Option FILE) = none →
      since ex_world.trace.length
          (on_data (some { data := [], fail := false }) false ex_world 7).world.trace =
        [.datahold_open 7 false,
          .reject_code ex_session.id .FILTER_FAIL 421 "temporary failure"])) :=
  ⟨by decide,
   C5_on_data_rejects_iff_acquisition_fails (some { data := [], fail := false }) false
     ex_world 7 ex_session (by decide)⟩

/-- C10: on a connection with a session, `on_rcpt` with r1 and then with r2
returns accept both times and leaves the stored recipient equal to the text of
r2; the sender, the session identity (address, hostname, greeting) and every
other field stay as they were. -/
theorem C10_last_recipient_wins (w : World) (id : Nat) (rs : session) (r1 r2 : mailaddr)
    (hrs : filter_api_get_udata w id = some rs) :
    ∃ w1 w2 rs2, on_rcpt w id r1 = .ret w1 .of_accept ∧ on_rcpt w1 id r2 = .ret w2 .of_accept ∧
      since w.trace.length w2.trace = [.accept id, .accept id] ∧
      filter_api_get_udata w2 id = some rs2 ∧
      rs2.tx.rcpt = some (filter_api_mailaddr_to_text r2) ∧
      rs2.tx.from_ = rs.tx.from_ ∧ rs2.ip = rs.ip ∧ rs2.hostname = rs.hostname ∧
      rs2.helo = rs.helo ∧
      rs2 = { rs with tx := { rs.tx with rcpt := some (filter_api_mailaddr_to_text r2) } } := by
  have hw1 := on_rcpt_ok w id rs r1 hrs
  have hg1 := udata_get_set w.udata id
    { rs with tx := { rs.tx with rcpt := some (filter_api_mailaddr_to_text r1) } }
  have hw2 := on_rcpt_ok
    { udata := udata_set w.udata id
        { rs with tx := { rs.tx with rcpt := some (filter_api_mailaddr_to_text r1) } },
      trace := w.trace ++ [.accept id] } id _ r2 hg1
  refine ⟨_, _, { rs with tx := { rs.tx with rcpt := some (filter_api_mailaddr_to_text r2) } },
    hw1, hw2, ?_, ?_, rfl, rfl, rfl, rfl, rfl, rfl⟩
  · simp [since]
  · exact udata_get_set _ id _

/-- C10 at an example input: the hypotheses hold there and the theorem applies. -/
theorem C10_last_recipient_wins_witness :
    filter_api_get_udata ex_world 7 = some ex_session ∧
    ∃ w1 w2 rs2,
      on_rcpt ex_world 7 { text := "b@y.com".toList } = .ret w1 .of_accept ∧
      on_rcpt w1 7 { text := "c@z.com".toList } = .ret w2 .of_accept ∧
      since ex_world.trace.length w2.trace = [.accept 7, .accept 7] ∧
      filter_api_get_udata w2 7 = some rs2 ∧
      rs2.tx.rcpt = some (filter_api_mailaddr_to_text { text := "c@z.com".toList }) ∧
      rs2.tx.from_ = ex_session.tx.from_ ∧ rs2.ip = ex_session.ip ∧
      rs2.hostname = ex_session.hostname ∧ rs2.helo = ex_session.helo ∧
      rs2 = { ex_session with
        tx := { ex_session.tx with
          rcpt := some (filter_api_mailaddr_to_text { text := "c@z.com".toList }) } } :=
  ⟨by decide,
   C10_last_recipient_wins ex_world 7 ex_session { text := "b@y.com".toList }
     { text := "c@z.com".toList } (by decide)⟩

/-- C4, as stated, fails: after `on_data` with a spool stream acquired and the
scanner connect failing, the session still holds the stream and nothing has
released it. -/
theorem C4_on_data_leaves_spool_held :
    (filter_api_get_udata
      (on_data (some { data := [], fail := false }) false ex_world0 7).world 7).map
        (fun rs => rs.tx.fp) = some (some { data := [], fail := false }) ∧
    Event.spool_release 7 ∉
      (on_data (some { data := [], fail := false }) false ex_world0 7).world.trace := by
  decide

/-- C4, amended: on a connection with a session, when `on_data` acquires the
spool stream and the scanner connect then fails, `on_data` issues the
temporary-reject (FILTER_FAIL, 421, "temporary failure") and returns without
releasing the stream: it is still held in `tx.fp`.  The stream is released by the
transaction reset that follows (`on_rollback`), not by `on_data`. -/
theorem C4_spool_released_at_reset_not_in_on_data (w : World) (id : Nat) (rs : session)
    (f : FILE) (hrs : filter_api_get_udata w id = some rs) :
    ∃ w1 rs1 w2,
      on_data (some f) false w id = .ret w1 .of_reject_code ∧
      since w.trace.length w1.trace =
        [.datahold_open id true, .rspamd_connect rs.id false,
          .reject_code rs.id .FILTER_FAIL 421 "temporary failure"] ∧
      filter_api_get_udata w1 id = some rs1 ∧ rs1.tx.fp = some f ∧
      on_rollback w1 id = .ret w2 () ∧
      since w1.trace.length w2.trace = [.spool_release rs.id] ∧
      (filter_api_get_udata w2 id).map (fun s => s.tx.fp) = some none := by
  have hget : filter_api_get_udata (filter_api_datahold_open (some f) w id).1 id = some rs := hrs
  let rs1 : session := { rs with tx := { rs.tx with fp := some f, scanner := false } }
  let w1 : World :=
    { udata := udata_set (udata_set w.udata id { rs with tx := { rs.tx with fp := some f } }) id rs1,
      trace := w.trace ++ [.datahold_open id true, .rspamd_connect rs.id false,
        .reject_code rs.id .FILTER_FAIL 421 "temporary failure"] }
  have h1 : on_data (some f) false w id = .ret w1 .of_reject_code := by
    simp only [on_data, hget]
    simp [filter_api_datahold_open, filter_api_reject_code, filter_api_set_udata,
      rspamd_connect, emit, w1, rs1]
  have hg1 : filter_api_get_udata w1 id = some rs1 := udata_get_set _ id rs1
  have h2 := on_rollback_ok w1 id rs1 hg1
  refine ⟨w1, rs1, _, h1, ?_, hg1, rfl, h2, ?_, ?_⟩
  · simp [since, w1]
  · simp [session_reset, filter_api_set_udata, emit, since, w1, rs1]
  · simp only [session_reset, filter_api_set_udata, filter_api_get_udata, udata_get_set]
    rfl

/-- C4 at an example input: the hypotheses hold there and the theorem applies. -/
theorem C4_spool_released_at_reset_not_in_on_data_witness :
    filter_api_get_udata ex_world0 7 = some ex_session0 ∧
    ∃ w1 rs1 w2,
      on_data (some { data := [], fail := false }) false ex_world0 7 = .ret w1 .of_reject_code ∧
      since ex_world0.trace.length w1.trace =
        [.datahold_open 7 true, .rspamd_connect ex_session0.id false,
          .reject_code ex_session0.id .FILTER_FAIL 421 "temporary failure"] ∧
      filter_api_get_udata w1 7 = some rs1 ∧ rs1.tx.fp = some { data := [], fail := false } ∧
      on_rollback w1 7 = .ret w2 () ∧
      since w1.trace.length w2.trace = [.spool_release ex_session0.id] ∧
      (filter_api_get_udata w2 7).map (fun s => s.tx.fp) = some none :=
  ⟨by decide,
   C4_spool_released_at_reset_not_in_on_data ex_world0 7 ex_session0
     { data := [], fail := false } (by decide)⟩

/-- C9, as stated, fails: on a connection id without a session `on_helo` issues no
reject; it issues no decision at all and does not return (it dereferences the
missing session). -/
theorem C9_on_helo_without_session_issues_nothing :
    filter_api_get_udata ex_world 3 = none ∧
    (on_helo ex_world 3 "mail.example.com".toList).value = none ∧
    decisions (since ex_world.trace.length
      (on_helo ex_world 3 "mail.example.com".toList).world.trace) = [] := by
  decide

/-- C9, amended: for a connection id for which the user-data lookup yields no
session, `on_helo` does not return accept and issues no decision, neither accept
nor reject: it faults on the missing session, leaving everything as it was; for
an id with a session it records the greeting name on that session, issues one
accept and returns it. -/
theorem C9_on_helo_faults_or_records (w : World) (id : Nat) (helo : CString) :
    (filter_api_get_udata w id = none → on_helo w id helo = .fault w) ∧
    (∀ rs, filter_api_get_udata w id = some rs →
      ∃ w1, on_helo w id helo = .ret w1 .of_accept ∧
        since w.trace.length w1.trace = [.accept id] ∧
        filter_api_get_udata w1 id = some { rs with helo := some (cstr helo) }) := by
  constructor
  · intro h
    simp only [on_helo, h]
  · intro rs h
    refine ⟨{ udata := udata_set w.udata id { rs with helo := some (cstr helo) },
              trace := w.trace ++ [.accept id] }, ?_, ?_, ?_⟩
    · simp only [on_helo, h, filter_api_accept, emit, filter_api_set_udata, xstrdup]
    · simp [since]
    · exact udata_get_set _ id _

/-- C9 at an example input: the hypotheses hold there and the theorem applies. -/
theorem C9_on_helo_faults_or_records_witness :
    (filter_api_get_udata ex_world 3 = none ∧
      filter_api_get_udata ex_world 7 = some ex_session) ∧
    (on_helo ex_world 3 "mail.example.com".toList = .fault ex_world) ∧
    (∃ w1, on_helo ex_world 7 "mail.example.com".toList = .ret w1 .of_accept ∧
      since ex_world.trace.length w1.trace = [.accept 7] ∧
      filter_api_get_udata w1 7 =
        some { ex_session with helo := some (cstr "mail.example.com".toList) }) :=
  ⟨⟨by decide, by decide⟩,
   (C9_on_helo_faults_or_records ex_world 3 "mail.example.com".toList).1 (by decide),
   (C9_on_helo_faults_or_records ex_world 7 "mail.example.com".toList).2 ex_session (by decide)⟩

end FilterRspamd
